import Mathlib

/-!
# Verification of the fink-science batch classifiers

Shallow embedding of the two pandas UDFs of this repository:

* `predict_nn` (src/fink_science/cats/processor.py): pads each object's
  light curve to a fixed 395-step tensor and runs a CBPF neural classifier;
* `t2` (src/fink_science/t2/processor.py): applies selection cuts, formats
  the surviving records in SNANA layout, and runs the T2 classifier one
  object at a time, merging results back into the original batch positions.

Columnar batches are modelled as lists (one entry per record); each entry of
a series column is itself a list (the per-object history).  Floating-point
values are modelled as rationals `ℚ` — the arithmetic performed by the glue
code itself is exact (subtraction, comparison); the numerical model inference
is opaque and is passed in as a function parameter.  A Python exception is
modelled as `Option.none`.  Missing values (`NaN` in a magnitude column) are
modelled as `Option.none` entries.
-/

set_option autoImplicit false

namespace FinkScience

universe u v

/-! ## cats: `predict_nn` (src/fink_science/cats/processor.py) -/

/-- `filter_dict = {"u": 1, "g": 2, "r": 3, "i": 4, "z": 5, "Y": 6}`
(processor.py line 104).  A lookup of any other filter name raises a
`KeyError` in Python, modelled by `none`. -/
def filter_dict (s : String) : Option ℚ :=
  if s = "u" then some 1
  else if s = "g" then some 2
  else if s = "r" then some 3
  else if s = "i" then some 4
  else if s = "z" then some 5
  else if s = "Y" then some 6
  else none

/-- `mjds - mjds[0]` (processor.py line 117): shift a time series so that its
first timestamp maps to 0.  Applied only to non-empty series in the source;
on `[]` we return `[]` (the branch is never taken). -/
def rescale_cats (t : List ℚ) : List ℚ :=
  match t with
  | [] => []
  | t0 :: _ => t.map (fun x => x - t0)

/-- `[x[0] - i for i in x]` (t2/processor.py line 129): the T2 rescaling,
first timestamp minus each element.  On `[]` the comprehension body never
evaluates `x[0]`, so the result is `[]` without error. -/
def rescale_t2 (x : List ℚ) : List ℚ :=
  match x with
  | [] => []
  | x0 :: _ => x.map (fun i => x0 - i)

/-- Modelled from the spec: `norm_column` (fink_science/cats/utilities.py, a
file of this repository that is not under src/) — "Rescale/pad each object's
series"; modelled as a min-max rescaling of the column, which preserves the
column's length (the only property the claims depend on). -/
def norm_column (xs : List ℚ) : List ℚ :=
  match xs.min?, xs.max? with
  | some lo, some hi =>
      if hi = lo then xs.map (fun _ => 0)
      else xs.map (fun x => (x - lo) / (hi - lo))
  | _, _ => xs

/-- `keras.utils.pad_sequences(_, maxlen, value, padding="post")` for one
sequence (external library, documented behaviour): sequences longer than
`maxlen` are truncated at the front (the default `truncating="pre"` keeps the
last `maxlen` entries); shorter ones are padded at the end with `v`. -/
def pad_post {α : Type u} (maxlen : Nat) (v : α) (xs : List α) : List α :=
  let ys := xs.drop (xs.length - maxlen)
  ys ++ List.replicate (maxlen - ys.length) v

/-- One time step of the stacked light-curve tensor: the four channels
time/flux/error/band produced by `np.concatenate(..., axis=-1)`
(processor.py lines 138-140). -/
structure LCStep where
  mjd : ℚ
  flux : ℚ
  err : ℚ
  band : ℚ
deriving DecidableEq

/-- Zip four equally long rows into a row of 4-channel steps (the innermost
axis of `np.concatenate(..., axis=-1)`). -/
def zipRow4 : List ℚ → List ℚ → List ℚ → List ℚ → List LCStep
  | a :: as, b :: bs, c :: cs, d :: ds => ⟨a, b, c, d⟩ :: zipRow4 as bs cs ds
  | _, _, _, _ => []

/-- Stack the per-object rows of the four channel matrices. -/
def zipCols4 : List (List ℚ) → List (List ℚ) → List (List ℚ) →
    List (List ℚ) → List (List LCStep)
  | a :: as, b :: bs, c :: cs, d :: ds => zipRow4 a b c d :: zipCols4 as bs cs ds
  | _, _, _, _ => []

/-- `np.concatenate([mjd[..., None], flux[..., None], error[..., None],
band[..., None]], axis=-1)` (processor.py lines 138-140).  NumPy raises a
`ValueError` when the leading dimensions disagree, modelled by `none`. -/
def concat4 (a b c d : List (List ℚ)) : Option (List (List LCStep)) :=
  if a.length = b.length ∧ b.length = c.length ∧ c.length = d.length
  then some (zipCols4 a b c d) else none

/-- The enumerate loop of processor.py lines 109-117 visits the records in
order and keeps only those with `len(mjds) > 0`, pairing each kept time
series with the filter names at the same batch index. -/
def cats_pairs (mid : List (List ℚ)) (fn : List (List String)) :
    List (List ℚ × List String) :=
  (mid.zip fn).filter (fun p => !p.1.isEmpty)

/-- Traverse a list with a fallible function, failing on the first failure
(the semantics of a Python loop whose body may raise). -/
def mapOpt {α : Type u} {β : Type v} (f : α → Option β) :
    List α → Option (List β)
  | [] => some []
  | x :: xs =>
      match f x, mapOpt f xs with
      | some y, some ys => some (y :: ys)
      | _, _ => none

/-- `filters` built by the loop (lines 111-115): for every kept record, look
up each filter name in `filter_dict`.  An unrecognized name raises a
`KeyError`, modelled by `none`. -/
def cats_filters (mid : List (List ℚ)) (fn : List (List String)) :
    Option (List (List ℚ)) :=
  mapOpt (fun p => mapOpt filter_dict p.2) (cats_pairs mid fn)

/-- The value the `filters` loop produces when every lookup succeeds: the
per-record filter codes. -/
def cats_codes (mid : List (List ℚ)) (fn : List (List String)) :
    List (List ℚ) :=
  (cats_pairs mid fn).map (fun p => p.2.map (fun s => (filter_dict s).getD 0))

/-- `mjd` built by the loop (line 117): the rescaled time series of the kept
records. -/
def cats_mjd (mid : List (List ℚ)) (fn : List (List String)) :
    List (List ℚ) :=
  (cats_pairs mid fn).map (fun p => rescale_cats p.1)

/-- The padded band matrix (`keras.utils.pad_sequences(filters, maxlen=395,
value=0.0, padding="post")`, processor.py lines 134-136). -/
def cats_band (mid : List (List ℚ)) (fn : List (List String)) :
    Option (List (List ℚ)) :=
  (cats_filters mid fn).map (fun fs => fs.map (pad_post 395 0))

/-- The stacked tensor produced when no exception occurs: the four padded
channel matrices zipped channel-last. -/
def cats_lc_value (mid flux err : List (List ℚ)) (fn : List (List String)) :
    List (List LCStep) :=
  zipCols4
    ((cats_mjd mid fn).map (pad_post 395 (-999)))
    ((flux.map norm_column).map (pad_post 395 (-999)))
    ((err.map norm_column).map (pad_post 395 (-999)))
    ((cats_codes mid fn).map (pad_post 395 0))

/-- The stacked light-curve tensor `lc` (processor.py lines 119-140): flux
and error columns are normalized (for every record) and padded to 395 steps
with `-999.0`; the rescaled times of the non-empty records are padded to 395
steps with `-999.0`; the band codes of the non-empty records are padded to
395 steps with `0`; the four channel matrices are stacked. -/
def cats_lc (mid flux err : List (List ℚ)) (fn : List (List String)) :
    Option (List (List LCStep)) := do
  let bandP ← cats_band mid fn
  let fluxP := (flux.map norm_column).map (pad_post 395 (-999))
  let mjdP := (cats_mjd mid fn).map (pad_post 395 (-999))
  let errP := (err.map norm_column).map (pad_post 395 (-999))
  concat4 mjdP fluxP errP bandP

/-- The fixed default model location, relative to the module's directory
(processor.py line 145). -/
def defaultCatsModelPath : String :=
  "/data/models/cats_models/cats_small_nometa_serial.keras"

/-- Model-path resolution (processor.py lines 142-147): with `model=None`
the fixed default relative path is used, otherwise `model.to_numpy()[0]`,
the first element of the supplied column (`none` models the `IndexError` on
an empty column). -/
def cats_model_path (model : Option (List String)) : Option String :=
  match model with
  | none => some defaultCatsModelPath
  | some col => col.head?

/-- The value returned by one `predict_nn` call: the per-record probability
rows (`pd.Series(list(preds))`) together with the path of the model artifact
that was loaded to produce them. -/
structure CatsResult where
  preds : List (List ℚ)
  modelPath : String
deriving DecidableEq

/-- Shallow embedding of `predict_nn` (src/fink_science/cats/processor.py
lines 31-153).  `predict` is the opaque `NN.predict` of the loaded Keras
model (external service); it receives the stacked tensor and returns one
probability row per tensor row.  `none` models an uncaught Python
exception. -/
def predict_nn (predict : List (List LCStep) → List (List ℚ))
    (midpointTai psFlux psFluxErr : List (List ℚ))
    (filterName : List (List String)) (model : Option (List String)) :
    Option CatsResult := do
  let lc ← cats_lc midpointTai psFlux psFluxErr filterName
  let path ← cats_model_path model
  some ⟨predict lc, path⟩

/-! ## t2 (src/fink_science/t2/processor.py) -/

/-- Modelled from the spec: `T2_COLS` (fink_science/t2/utilities.py, a file
of this repository that is not under src/) — the fixed list of class labels
of the T2 classifier ("mapping from class label to probability").  The
claims depend only on it being a fixed label list. -/
def T2_COLS : List String :=
  ["mu-Lens-Single", "TDE", "EB", "SNII", "SNIax", "Mira", "SNIbc",
   "KN", "M-dwarf", "SNIa-91bg", "AGN", "SNIa", "RRL", "SLSN-I"]

/-- `default = {k: -1.0 for k in T2_COLS}` (t2/processor.py line 112): the
sentinel mapping assigning -1.0 to every class label. -/
def t2_default : List (String × ℚ) := T2_COLS.map (fun k => (k, -1))

/-- `ZTF_FILTER_MAP = {1: "ztfg", 2: "ztfr", 3: "ztfi"}`
(t2/processor.py line 120). -/
def ztf_filter_map (fid : Nat) : Option String :=
  if fid = 1 then some "ztfg"
  else if fid = 2 then some "ztfr"
  else if fid = 3 then some "ztfi"
  else none

/-- Boolean indexing `xs[mask]`: the elements of `xs` at the positions where
`mask` holds, in order. -/
def maskedElems {α : Type u} : List α → List Bool → List α
  | x :: xs, b :: bs => if b then x :: maskedElems xs bs else maskedElems xs bs
  | _, _ => []

/-- NumPy masked assignment `base[mask] = vals`: the successive entries of
`vals` replace the entries of `base` at the positions where `mask` holds.
(In the source `vals` always has exactly one entry per masked position.) -/
def scatterMask {α : Type u} : List α → List Bool → List α → List α
  | x :: xs, b :: bs, vs =>
      if b then
        match vs with
        | v :: vs' => v :: scatterMask xs bs vs'
        | [] => x :: xs
      else x :: scatterMask xs bs vs
  | xs, _, _ => xs

/-- One row of the SNANA-formatted frame after the column renaming of
t2/processor.py lines 135-143: the object id and the converted filter name
(plus the rescaled date), which are the fields the processor reads back. -/
structure SnanaRow where
  object_id : Int
  mjd : ℚ
  flt : String
deriving DecidableEq

/-- The rows contributed by one kept record: one row per observation whose
magnitude and error are present (`pdf.dropna()` drops rows with missing
values, line 145) and whose filter id is in `ZTF_FILTER_MAP`. -/
def row_obs (c : Int) : List ℚ → List Nat → List (Option ℚ) →
    List (Option ℚ) → List SnanaRow
  | d :: ds, f :: fs, m :: ms, s :: ss =>
      let rest := row_obs c ds fs ms ss
      match m, s, ztf_filter_map f with
      | some _, some _, some fname => ⟨c, d, fname⟩ :: rest
      | _, _, _ => rest
  | _, _, _, _ => []

/-- Modelled behaviour of the external `format_data_as_snana` (fink_utils)
followed by the renaming and `dropna` of t2/processor.py lines 131-146: a
long-format frame with one row per surviving observation of each record kept
by `mask`, carrying the object id, the rescaled date and the converted
filter name. -/
def snana_rows : List Int → List (List ℚ) → List (List Nat) →
    List (List (Option ℚ)) → List (List (Option ℚ)) → List Bool →
    List SnanaRow
  | c :: cs, d :: ds, f :: fs, m :: ms, s :: ss, b :: bs =>
      (if b then row_obs c d f m s else []) ++ snana_rows cs ds fs ms ss bs
  | _, _, _, _, _, _ => []

/-- `len(np.unique(sub["filter"]))` (t2/processor.py line 161): the number
of distinct filter names among an object's rows. -/
def distinct_filters (rows : List SnanaRow) : Nat :=
  (rows.map (fun r => r.flt)).dedup.length

/-- Modelled from the spec: `get_lite_model` (fink_science/t2/utilities.py,
a file of this repository that is not under src/) — loads a pre-trained T2
model by name; the docstring lists `tinho` as the available (default)
model.  Modelled as returning the identifier of the loaded artifact. -/
def get_lite_model (model_name : Option String) : String :=
  match model_name with
  | none => "tinho"
  | some n => n

/-- Model resolution of t2/processor.py lines 148-153: with a supplied
column, `get_lite_model(model_name=model_name.to_numpy()[0])` (the first
element; `none` models the `IndexError` on an empty column), otherwise the
default `get_lite_model()`. -/
def t2_load_model (model_name : Option (List String)) : Option String :=
  match model_name with
  | none => some (get_lite_model none)
  | some col => col.head?.map (fun n => get_lite_model (some n))

/-- The observable outcome of one `t2` call: the returned series (one
class-to-probability association list per record), the identifier of the
model artifact that was loaded (`none` when the early return fired before
any model load), and how many times `model.predict` ran. -/
structure T2Result where
  out : List (List (String × ℚ))
  model : Option String
  predictCalls : Nat
deriving DecidableEq

/-- The per-object body of the loop of t2/processor.py lines 155-180 for a
masked candidate `c`: restrict the frame to the object's rows
(`pdf[pdf["object_id"] == candid_]`), substitute the sentinel mapping when
the object does not have exactly 2 distinct filters, otherwise zip the class
labels with the opaque model prediction
(`dict(zip(T2_COLS, values[0]))`). -/
def t2_val (predict : Int → List SnanaRow → List ℚ) (pdf : List SnanaRow)
    (c : Int) : List (String × ℚ) :=
  let sub := pdf.filter (fun r => r.object_id == c)
  if distinct_filters sub ≠ 2 then t2_default
  else T2_COLS.zip (predict c sub)

/-- `sub = pdf[pdf["object_id"] == candid_]` (t2/processor.py line 158) for
the frame the processor builds: the rows of candidate `c`. -/
def t2_sub (candid : List Int) (jd : List (List ℚ)) (fid : List (List Nat))
    (magpsf sigmapsf : List (List (Option ℚ))) (mask : List Bool)
    (c : Int) : List SnanaRow :=
  (snana_rows candid (jd.map rescale_t2) fid magpsf sigmapsf mask).filter
    (fun r => r.object_id == c)

/-- Whether the loop body for candidate `c` reaches `model.predict`. -/
def t2_callCount (pdf : List SnanaRow) (c : Int) : Nat :=
  let sub := pdf.filter (fun r => r.object_id == c)
  if distinct_filters sub ≠ 2 then 0 else 1

/-- Shallow embedding of the body of `t2` (src/fink_science/t2/processor.py
lines 112-185) given the already-computed selection mask.  `predict` is the
opaque per-object model pipeline (GP interpolation, robust scaling and
`model.predict` — all external library calls) returning the probability
vector `values[0]`.  Mirrors the source line by line: build the sentinel
output, return it immediately when no record passes the mask
(`len(jd[mask]) == 0`), otherwise rescale the dates, build the SNANA frame,
load the model, compute one value per masked candidate and scatter the
values back into the original batch positions
(`to_return[mask] = vals`). -/
def t2_run (predict : Int → List SnanaRow → List ℚ)
    (candid : List Int) (jd : List (List ℚ)) (fid : List (List Nat))
    (magpsf sigmapsf : List (List (Option ℚ)))
    (mask : List Bool) (model_name : Option (List String)) : T2Result :=
  let to_return := List.replicate jd.length t2_default
  if (maskedElems jd mask).length = 0 then ⟨to_return, none, 0⟩
  else
    let dates := jd.map rescale_t2
    let pdf := snana_rows candid dates fid magpsf sigmapsf mask
    let model := t2_load_model model_name
    let vals := (maskedElems candid mask).map (t2_val predict pdf)
    let calls := ((maskedElems candid mask).map (t2_callCount pdf)).sum
    ⟨scatterMask to_return mask vals, model, calls⟩

/-- Modelled from the spec: `apply_selection_cuts_ztf`
(fink_science/t2/utilities.py, a file of this repository that is not under
src/) — "Filter out objects failing simple selection criteria (insufficient
bands, cross-match flags, detection history length)".  Modelled as one
boolean per record: enough valid measurements, an unflagged cross-match, not
a solar-system object, and a short detection history. -/
def apply_selection_cuts_ztf : List (List (Option ℚ)) → List String →
    List (List ℚ) → List ℚ → List Nat → List Bool
  | m :: ms, c :: cs, j :: js, h :: hs, r :: rs =>
      (decide (3 ≤ (m.filter Option.isSome).length) &&
       (c == "Unknown") && !(r == 2) && !(r == 3) &&
       decide (j.getLastD h - h ≤ 30)) ::
      apply_selection_cuts_ztf ms cs js hs rs
  | _, _, _, _, _ => []

/-- Shallow embedding of `t2` (src/fink_science/t2/processor.py lines
48-185): compute the selection mask, then run the body. -/
def t2 (predict : Int → List SnanaRow → List ℚ)
    (candid : List Int) (jd : List (List ℚ)) (fid : List (List Nat))
    (magpsf sigmapsf : List (List (Option ℚ)))
    (roid : List Nat) (cdsxmatch : List String) (jdstarthist : List ℚ)
    (model_name : Option (List String)) : T2Result :=
  t2_run predict candid jd fid magpsf sigmapsf
    (apply_selection_cuts_ztf magpsf cdsxmatch jd jdstarthist roid)
    model_name

/-! ## State-threading versions

The Python functions receive mutable pandas Series.  To state the
frame/no-mutation and statelessness properties, each function is embedded a
second time as a transformer of the full input state: every Python statement
of the body either binds a fresh local name (`flux = psFlux.apply(...)`
rebinds the local, it does not write into `psFlux`) or calls a
non-mutating library function, so the input state is threaded through
unchanged next to the produced value. -/

/-- The input columns of one `predict_nn` invocation. -/
structure CatsInputs where
  midpointTai : List (List ℚ)
  psFlux : List (List ℚ)
  psFluxErr : List (List ℚ)
  filterName : List (List String)
  model : Option (List String)
deriving DecidableEq

/-- `predict_nn` as a state transformer: statement-by-statement reading of
processor.py lines 104-153; each line binds a local, none writes to an
input column. -/
def predict_nn_io (predict : List (List LCStep) → List (List ℚ))
    (s : CatsInputs) : CatsInputs × Option CatsResult :=
  let filters := cats_filters s.midpointTai s.filterName
  let mjd := cats_mjd s.midpointTai s.filterName
  let fluxP := (s.psFlux.map norm_column).map (pad_post 395 (-999))
  let errP := (s.psFluxErr.map norm_column).map (pad_post 395 (-999))
  let mjdP := mjd.map (pad_post 395 (-999))
  let bandP := filters.map (fun fs => fs.map (pad_post 395 0))
  let lc := bandP.bind (fun b => concat4 mjdP fluxP errP b)
  let path := cats_model_path s.model
  (s, lc.bind (fun l => path.map (fun p => ⟨predict l, p⟩)))

/-- The input columns of one `t2` invocation. -/
structure T2Inputs where
  candid : List Int
  jd : List (List ℚ)
  fid : List (List Nat)
  magpsf : List (List (Option ℚ))
  sigmapsf : List (List (Option ℚ))
  roid : List Nat
  cdsxmatch : List String
  jdstarthist : List ℚ
  model_name : Option (List String)
deriving DecidableEq

/-- `t2` as a state transformer: the mask and the body read the input
columns; no statement writes to them (`to_return[mask] = vals` mutates the
local `to_return` only). -/
def t2_io (predict : Int → List SnanaRow → List ℚ) (s : T2Inputs) :
    T2Inputs × T2Result :=
  let mask := apply_selection_cuts_ztf s.magpsf s.cdsxmatch s.jd
    s.jdstarthist s.roid
  (s, t2_run predict s.candid s.jd s.fid s.magpsf s.sigmapsf mask
    s.model_name)

/-- Model predictions used to instantiate the opaque inference functions on
concrete inputs: one constant probability row per tensor row. -/
def cpred0 : List (List LCStep) → List (List ℚ) :=
  fun xs => xs.map (fun _ => [1])

/-- Concrete opaque T2 pipeline for witnesses: a constant probability
vector. -/
def tpred0 : Int → List SnanaRow → List ℚ :=
  fun _ _ => List.replicate T2_COLS.length (1 / 2)

/-! ## General lemmas about the building blocks -/

theorem getD_replicate {α : Type u} (v d : α) {n k : Nat} (h : k < n) :
    (List.replicate n v).getD k d = v := by
  rw [List.getD_eq_getElem _ _ (by simpa using h)]
  exact List.getElem_replicate _ _

theorem pad_post_length {α : Type u} (m : Nat) (v : α) (xs : List α) :
    (pad_post m v xs).length = m := by
  simp only [pad_post, List.length_append, List.length_drop,
    List.length_replicate]
  omega

theorem pad_post_getD_ge {α : Type u} (m : Nat) (v : α) (xs : List α)
    (d : α) (j : Nat) (h1 : min xs.length m ≤ j) (h2 : j < m) :
    (pad_post m v xs).getD j d = v := by
  have hys : (xs.drop (xs.length - m)).length = min xs.length m := by
    simp only [List.length_drop]; omega
  simp only [pad_post]
  rw [List.getD_append_right _ _ _ _ (by omega)]
  exact getD_replicate _ _ (by omega)

theorem pad_post_getD_lt {α : Type u} (m : Nat) (v : α) (xs : List α)
    (d : α) (j : Nat) (h : j < min xs.length m) :
    (pad_post m v xs).getD j d = xs.getD (xs.length - m + j) d := by
  have hys : (xs.drop (xs.length - m)).length = min xs.length m := by
    simp only [List.length_drop]; omega
  simp only [pad_post]
  rw [List.getD_append _ _ _ _ (by omega)]
  rw [List.getD_eq_getElem _ _ (by omega), List.getD_eq_getElem _ _ (by omega)]
  exact List.getElem_drop _

theorem mapOpt_eq_some_map {α : Type u} {β : Type v} (f : α → Option β)
    (y0 : β) : ∀ (xs : List α), (∀ x ∈ xs, f x ≠ none) →
    mapOpt f xs = some (xs.map (fun x => (f x).getD y0))
  | [], _ => rfl
  | x :: xs, h => by
      have hx : f x ≠ none := h x (List.mem_cons_self x xs)
      obtain ⟨y, hy⟩ : ∃ y, f x = some y := by
        cases hfx : f x with
        | none => exact absurd hfx hx
        | some y => exact ⟨y, rfl⟩
      have ih := mapOpt_eq_some_map f y0 xs
        (fun a ha => h a (List.mem_cons_of_mem x ha))
      simp [mapOpt, hy, ih]

theorem mapOpt_some_length {α : Type u} {β : Type v} (f : α → Option β) :
    ∀ {xs : List α} {ys : List β}, mapOpt f xs = some ys →
      ys.length = xs.length
  | [], ys, h => by simp only [mapOpt] at h; simp [← Option.some_inj.mp h]
  | x :: xs, ys, h => by
      cases hx : f x with
      | none => simp [mapOpt, hx] at h
      | some y =>
        cases hxs : mapOpt f xs with
        | none => simp [mapOpt, hx, hxs] at h
        | some ys' =>
          have := mapOpt_some_length f hxs
          simp only [mapOpt, hx, hxs] at h
          simp [← Option.some_inj.mp h, this]

theorem mapOpt_none_of_mem {α : Type u} {β : Type v} (f : α → Option β) :
    ∀ {xs : List α} {x : α}, x ∈ xs → f x = none → mapOpt f xs = none
  | [], x, hx, _ => by cases hx
  | a :: xs, x, hx, hfx => by
      rcases List.mem_cons.mp hx with rfl | hmem
      · simp [mapOpt, hfx]
      · have := mapOpt_none_of_mem f hmem hfx
        simp only [mapOpt, this]
        cases f a <;> rfl

theorem mapOpt_mem {α : Type u} {β : Type v} (f : α → Option β) :
    ∀ {xs : List α} {ys : List β}, mapOpt f xs = some ys →
      ∀ y ∈ ys, ∃ x ∈ xs, f x = some y
  | [], ys, h, y, hy => by
      simp only [mapOpt] at h
      rw [← Option.some_inj.mp h] at hy; cases hy
  | x :: xs, ys, h, y, hy => by
      cases hx : f x with
      | none => simp [mapOpt, hx] at h
      | some y' =>
        cases hxs : mapOpt f xs with
        | none => simp [mapOpt, hx, hxs] at h
        | some ys' =>
          simp only [mapOpt, hx, hxs] at h
          rw [← Option.some_inj.mp h] at hy
          rcases List.mem_cons.mp hy with rfl | hmem
          · exact ⟨x, List.mem_cons_self x xs, hx⟩
          · obtain ⟨a, ha, hfa⟩ := mapOpt_mem f hxs y hmem
            exact ⟨a, List.mem_cons_of_mem x ha, hfa⟩

theorem norm_column_length (xs : List ℚ) :
    (norm_column xs).length = xs.length := by
  unfold norm_column
  split
  · split <;> simp
  · rfl

theorem rescale_cats_length (t : List ℚ) :
    (rescale_cats t).length = t.length := by
  unfold rescale_cats
  cases t <;> simp

theorem rescale_t2_length (t : List ℚ) :
    (rescale_t2 t).length = t.length := by
  unfold rescale_t2
  cases t <;> simp

theorem filter_dict_range (s : String) (q : ℚ)
    (h : filter_dict s = some q) : 1 ≤ q ∧ q ≤ 6 := by
  unfold filter_dict at h
  split_ifs at h <;> cases h <;> norm_num

theorem zipRow4_length_eq {n : Nat} :
    ∀ {a b c d : List ℚ}, a.length = n → b.length = n → c.length = n →
      d.length = n → (zipRow4 a b c d).length = n := by
  induction n with
  | zero =>
    intro a b c d ha hb hc hd
    rw [List.length_eq_zero] at ha hb hc hd
    subst ha; subst hb; subst hc; subst hd
    rfl
  | succ n ih =>
    intro a b c d ha hb hc hd
    cases a with
    | nil => simp at ha
    | cons x as =>
      cases b with
      | nil => simp at hb
      | cons y bs =>
        cases c with
        | nil => simp at hc
        | cons z cs =>
          cases d with
          | nil => simp at hd
          | cons w ds =>
            simp only [List.length_cons, Nat.succ.injEq] at ha hb hc hd
            simp only [zipRow4, List.length_cons]
            exact congrArg Nat.succ (ih ha hb hc hd)

theorem zipRow4_getD {n : Nat} :
    ∀ {a b c d : List ℚ}, a.length = n → b.length = n → c.length = n →
      d.length = n → ∀ j, j < n → ∀ (z : LCStep),
      (zipRow4 a b c d).getD j z =
        ⟨a.getD j 0, b.getD j 0, c.getD j 0, d.getD j 0⟩ := by
  induction n with
  | zero => intro a b c d _ _ _ _ j hj; omega
  | succ n ih =>
    intro a b c d ha hb hc hd j hj z
    cases a with
    | nil => simp at ha
    | cons x as =>
      cases b with
      | nil => simp at hb
      | cons y bs =>
        cases c with
        | nil => simp at hc
        | cons w cs =>
          cases d with
          | nil => simp at hd
          | cons u ds =>
            simp only [List.length_cons, Nat.succ.injEq] at ha hb hc hd
            cases j with
            | zero => rfl
            | succ j =>
              simp only [zipRow4, List.getD_cons_succ]
              exact ih ha hb hc hd j (by omega) z

theorem zipCols4_length_eq {n : Nat} :
    ∀ {a b c d : List (List ℚ)}, a.length = n → b.length = n →
      c.length = n → d.length = n → (zipCols4 a b c d).length = n := by
  induction n with
  | zero =>
    intro a b c d ha hb hc hd
    rw [List.length_eq_zero] at ha hb hc hd
    subst ha; subst hb; subst hc; subst hd
    rfl
  | succ n ih =>
    intro a b c d ha hb hc hd
    cases a with
    | nil => simp at ha
    | cons x as =>
      cases b with
      | nil => simp at hb
      | cons y bs =>
        cases c with
        | nil => simp at hc
        | cons z cs =>
          cases d with
          | nil => simp at hd
          | cons w ds =>
            simp only [List.length_cons, Nat.succ.injEq] at ha hb hc hd
            simp only [zipCols4, List.length_cons]
            exact congrArg Nat.succ (ih ha hb hc hd)

theorem zipCols4_getD {n : Nat} :
    ∀ {a b c d : List (List ℚ)}, a.length = n → b.length = n →
      c.length = n → d.length = n → ∀ i, i < n →
      (zipCols4 a b c d).getD i [] =
        zipRow4 (a.getD i []) (b.getD i []) (c.getD i []) (d.getD i []) := by
  induction n with
  | zero => intro a b c d _ _ _ _ i hi; omega
  | succ n ih =>
    intro a b c d ha hb hc hd i hi
    cases a with
    | nil => simp at ha
    | cons x as =>
      cases b with
      | nil => simp at hb
      | cons y bs =>
        cases c with
        | nil => simp at hc
        | cons w cs =>
          cases d with
          | nil => simp at hd
          | cons u ds =>
            simp only [List.length_cons, Nat.succ.injEq] at ha hb hc hd
            cases i with
            | zero => rfl
            | succ i =>
              simp only [zipCols4, List.getD_cons_succ]
              exact ih ha hb hc hd i (by omega)

theorem scatterMask_length {α : Type u} :
    ∀ (base : List α) (mask : List Bool) (vs : List α),
      (scatterMask base mask vs).length = base.length
  | [], mask, vs => by cases mask <;> rfl
  | x :: xs, [], vs => rfl
  | x :: xs, b :: bs, vs => by
      cases b with
      | false =>
        simp only [scatterMask, Bool.false_eq_true, if_neg, List.length_cons,
          Nat.succ.injEq, reduceIte]
        exact scatterMask_length xs bs vs
      | true =>
        cases vs with
        | nil => simp [scatterMask]
        | cons v vs' =>
          simp only [scatterMask, reduceIte, List.length_cons, Nat.succ.injEq]
          exact scatterMask_length xs bs vs'

theorem maskedElems_ne_nil {α : Type u} :
    ∀ (xs : List α) (mask : List Bool) (i : Nat), i < xs.length →
      i < mask.length → mask.getD i false = true →
      maskedElems xs mask ≠ []
  | [], _, i, hi, _, _ => by simp at hi
  | x :: xs, [], i, _, hi, _ => by simp at hi
  | x :: xs, b :: bs, 0, _, _, hb => by
      simp only [List.getD_cons_zero] at hb
      subst hb
      simp [maskedElems]
  | x :: xs, b :: bs, i + 1, hi, hm, hb => by
      simp only [List.getD_cons_succ] at hb
      have := maskedElems_ne_nil xs bs i (by simpa using Nat.lt_of_succ_lt_succ hi)
        (by simpa using Nat.lt_of_succ_lt_succ hm) hb
      cases b with
      | true => simp [maskedElems]
      | false => simpa [maskedElems] using this

theorem scatter_char {α : Type u} {β : Type v} (f : β → α) (d : α) (x0 : β) :
    ∀ (xs : List β) (base : List α) (mask : List Bool) (i : Nat),
      base.length = xs.length → mask.length = xs.length → i < xs.length →
      (scatterMask base mask ((maskedElems xs mask).map f)).getD i d =
        if mask.getD i false = true then f (xs.getD i x0)
        else base.getD i d
  | [], base, mask, i, _, _, hi => by simp at hi
  | x :: xs, [], mask, i, hb, _, _ => by simp at hb
  | x :: xs, base, [], i, _, hm, _ => by simp at hm
  | x :: xs, y :: base, b :: bs, i, hb, hm, hi => by
      simp only [List.length_cons, Nat.succ.injEq] at hb hm
      cases b with
      | true =>
        simp only [maskedElems, reduceIte, List.map_cons, scatterMask]
        cases i with
        | zero => simp
        | succ i =>
          simp only [List.getD_cons_succ]
          exact scatter_char f d x0 xs base bs i hb hm
            (Nat.lt_of_succ_lt_succ hi)
      | false =>
        simp only [maskedElems, Bool.false_eq_true, reduceIte, scatterMask]
        cases i with
        | zero => simp
        | succ i =>
          simp only [List.getD_cons_succ]
          exact scatter_char f d x0 xs base bs i hb hm
            (Nat.lt_of_succ_lt_succ hi)

theorem getD_map_of_lt {α : Type u} {β : Type v} (f : α → β) (l : List α)
    (d : β) (d' : α) (i : Nat) (hi : i < l.length) :
    (l.map f).getD i d = f (l.getD i d') := by
  rw [List.getD_eq_getElem _ _ (by simpa using hi), List.getElem_map,
    List.getD_eq_getElem _ _ hi]

/-! ## Characterization of `t2_run` -/

theorem t2_run_out_length (predict : Int → List SnanaRow → List ℚ)
    (candid : List Int) (jd : List (List ℚ)) (fid : List (List Nat))
    (magpsf sigmapsf : List (List (Option ℚ))) (mask : List Bool)
    (model_name : Option (List String)) :
    (t2_run predict candid jd fid magpsf sigmapsf mask model_name).out.length
      = jd.length := by
  unfold t2_run
  split
  · simp
  · simp [scatterMask_length]

theorem t2_run_early (predict : Int → List SnanaRow → List ℚ)
    (candid : List Int) (jd : List (List ℚ)) (fid : List (List Nat))
    (magpsf sigmapsf : List (List (Option ℚ))) (mask : List Bool)
    (model_name : Option (List String))
    (h : (maskedElems jd mask).length = 0) :
    t2_run predict candid jd fid magpsf sigmapsf mask model_name =
      ⟨List.replicate jd.length t2_default, none, 0⟩ := by
  simp [t2_run, h]

theorem t2_run_model (predict : Int → List SnanaRow → List ℚ)
    (candid : List Int) (jd : List (List ℚ)) (fid : List (List Nat))
    (magpsf sigmapsf : List (List (Option ℚ))) (mask : List Bool)
    (model_name : Option (List String))
    (h : (maskedElems jd mask).length ≠ 0) :
    (t2_run predict candid jd fid magpsf sigmapsf mask model_name).model =
      t2_load_model model_name := by
  simp [t2_run, h]

theorem t2_run_out_getD (predict : Int → List SnanaRow → List ℚ)
    (candid : List Int) (jd : List (List ℚ)) (fid : List (List Nat))
    (magpsf sigmapsf : List (List (Option ℚ))) (mask : List Bool)
    (model_name : Option (List String)) {n : Nat}
    (hc : candid.length = n) (hj : jd.length = n) (hm : mask.length = n)
    (i : Nat) (hi : i < n) :
    (t2_run predict candid jd fid magpsf sigmapsf mask model_name).out.getD
        i [] =
      if mask.getD i false = true then
        t2_val predict
          (snana_rows candid (jd.map rescale_t2) fid magpsf sigmapsf mask)
          (candid.getD i 0)
      else t2_default := by
  unfold t2_run
  split
  case isTrue h =>
    have hmf : mask.getD i false = false := by
      cases hb : mask.getD i false with
      | false => rfl
      | true =>
        exact absurd (List.length_eq_zero.mp h)
          (maskedElems_ne_nil jd mask i (by omega) (by omega) hb)
    simp only [hmf, Bool.false_eq_true, if_neg, reduceIte]
    exact getD_replicate _ _ (by omega)
  case isFalse h =>
    have := scatter_char
      (t2_val predict
        (snana_rows candid (jd.map rescale_t2) fid magpsf sigmapsf mask))
      ([] : List (String × ℚ)) (0 : Int) candid
      (List.replicate jd.length t2_default) mask i
      (by simp [hj, hc]) (by omega) (by omega)
    simp only at this ⊢
    rw [this]
    split
    · rfl
    · exact getD_replicate _ _ (by omega)

/-! ## Characterization of the cats pipeline -/

theorem cats_pairs_eq_zip (mid : List (List ℚ)) (fn : List (List String))
    (hne : ∀ t ∈ mid, t ≠ []) : cats_pairs mid fn = mid.zip fn := by
  unfold cats_pairs
  apply List.filter_eq_self.mpr
  intro p hp
  rcases p with ⟨t, f⟩
  obtain ⟨h1, _⟩ := List.of_mem_zip hp
  simpa [List.isEmpty_iff] using hne _ h1

theorem cats_pairs_length (mid : List (List ℚ)) (fn : List (List String))
    (hlen : fn.length = mid.length) (hne : ∀ t ∈ mid, t ≠ []) :
    (cats_pairs mid fn).length = mid.length := by
  rw [cats_pairs_eq_zip mid fn hne, List.length_zip, hlen]
  exact Nat.min_self _

theorem cats_pairs_getD (mid : List (List ℚ)) (fn : List (List String))
    (hlen : fn.length = mid.length) (hne : ∀ t ∈ mid, t ≠ [])
    (i : Nat) (hi : i < mid.length) :
    (cats_pairs mid fn).getD i ([], []) = (mid.getD i [], fn.getD i []) := by
  rw [cats_pairs_eq_zip mid fn hne]
  rw [List.getD_eq_getElem _ _ (by rw [List.length_zip, hlen]; omega)]
  rw [List.getElem_zip]
  rw [List.getD_eq_getElem _ _ hi, List.getD_eq_getElem _ _ (by omega)]

theorem cats_filters_some (mid : List (List ℚ)) (fn : List (List String))
    (hfil : ∀ r ∈ fn, ∀ s ∈ r, filter_dict s ≠ none) :
    cats_filters mid fn = some (cats_codes mid fn) := by
  unfold cats_filters cats_codes
  have houter : ∀ p ∈ cats_pairs mid fn, mapOpt filter_dict p.2 ≠ none := by
    intro p hp
    rcases p with ⟨t, f⟩
    have hzip := List.mem_of_mem_filter hp
    obtain ⟨_, h2⟩ := List.of_mem_zip hzip
    have hinner := mapOpt_eq_some_map filter_dict 0 f (hfil f h2)
    simp [hinner]
  rw [mapOpt_eq_some_map _ [] _ houter]
  congr 1
  apply List.map_congr_left
  intro p hp
  rcases p with ⟨t, f⟩
  have hzip := List.mem_of_mem_filter hp
  obtain ⟨_, h2⟩ := List.of_mem_zip hzip
  rw [mapOpt_eq_some_map filter_dict 0 f (hfil f h2)]
  rfl

theorem cats_codes_length (mid : List (List ℚ)) (fn : List (List String))
    (hlen : fn.length = mid.length) (hne : ∀ t ∈ mid, t ≠ []) :
    (cats_codes mid fn).length = mid.length := by
  unfold cats_codes
  rw [List.length_map, cats_pairs_length mid fn hlen hne]

theorem cats_mjd_length (mid : List (List ℚ)) (fn : List (List String))
    (hlen : fn.length = mid.length) (hne : ∀ t ∈ mid, t ≠ []) :
    (cats_mjd mid fn).length = mid.length := by
  unfold cats_mjd
  rw [List.length_map, cats_pairs_length mid fn hlen hne]

theorem cats_lc_some (mid flux err : List (List ℚ))
    (fn : List (List String))
    (hlenf : fn.length = mid.length) (hlenx : flux.length = mid.length)
    (hlene : err.length = mid.length) (hne : ∀ t ∈ mid, t ≠ [])
    (hfil : ∀ r ∈ fn, ∀ s ∈ r, filter_dict s ≠ none) :
    cats_lc mid flux err fn = some (cats_lc_value mid flux err fn) := by
  unfold cats_lc cats_band
  rw [cats_filters_some mid fn hfil]
  show concat4 _ _ _ _ = _
  unfold concat4 cats_lc_value
  rw [if_pos]
  simp only [List.length_map, cats_mjd_length mid fn hlenf hne,
    cats_codes_length mid fn hlenf hne, hlenx, hlene, and_self]

theorem cats_lc_value_length (mid flux err : List (List ℚ))
    (fn : List (List String))
    (hlenf : fn.length = mid.length) (hlenx : flux.length = mid.length)
    (hlene : err.length = mid.length) (hne : ∀ t ∈ mid, t ≠ []) :
    (cats_lc_value mid flux err fn).length = mid.length := by
  unfold cats_lc_value
  exact zipCols4_length_eq
    (by rw [List.length_map, cats_mjd_length mid fn hlenf hne])
    (by rw [List.length_map, List.length_map, hlenx])
    (by rw [List.length_map, List.length_map, hlene])
    (by rw [List.length_map, cats_codes_length mid fn hlenf hne])

theorem cats_lc_value_getD (mid flux err : List (List ℚ))
    (fn : List (List String))
    (hlenf : fn.length = mid.length) (hlenx : flux.length = mid.length)
    (hlene : err.length = mid.length) (hne : ∀ t ∈ mid, t ≠ [])
    (i : Nat) (hi : i < mid.length) :
    (cats_lc_value mid flux err fn).getD i [] =
      zipRow4
        (pad_post 395 (-999) (rescale_cats (mid.getD i [])))
        (pad_post 395 (-999) (norm_column (flux.getD i [])))
        (pad_post 395 (-999) (norm_column (err.getD i [])))
        (pad_post 395 0
          ((fn.getD i []).map (fun s => (filter_dict s).getD 0))) := by
  unfold cats_lc_value
  rw [zipCols4_getD
    (by rw [List.length_map, cats_mjd_length mid fn hlenf hne])
    (by rw [List.length_map, List.length_map, hlenx])
    (by rw [List.length_map, List.length_map, hlene])
    (by rw [List.length_map, cats_codes_length mid fn hlenf hne]) i hi]
  rw [getD_map_of_lt _ _ _ [] i
    (by rw [cats_mjd_length mid fn hlenf hne]; omega)]
  rw [getD_map_of_lt _ _ _ [] i (by rw [List.length_map, hlenx]; omega)]
  rw [getD_map_of_lt _ _ _ [] i (by rw [hlenx]; omega)]
  rw [getD_map_of_lt _ _ _ [] i (by rw [List.length_map, hlene]; omega)]
  rw [getD_map_of_lt _ _ _ [] i (by rw [hlene]; omega)]
  rw [getD_map_of_lt _ _ _ [] i
    (by rw [cats_codes_length mid fn hlenf hne]; omega)]
  unfold cats_mjd cats_codes
  rw [getD_map_of_lt _ _ _ ([], []) i
    (by rw [cats_pairs_length mid fn hlenf hne]; omega)]
  rw [getD_map_of_lt _ _ _ ([], []) i
    (by rw [cats_pairs_length mid fn hlenf hne]; omega)]
  rw [cats_pairs_getD mid fn hlenf hne i hi]

theorem predict_nn_eq (predict : List (List LCStep) → List (List ℚ))
    (mid flux err : List (List ℚ)) (fn : List (List String))
    (model : Option (List String))
    (hlenf : fn.length = mid.length) (hlenx : flux.length = mid.length)
    (hlene : err.length = mid.length) (hne : ∀ t ∈ mid, t ≠ [])
    (hfil : ∀ r ∈ fn, ∀ s ∈ r, filter_dict s ≠ none)
    (path : String) (hpath : cats_model_path model = some path) :
    predict_nn predict mid flux err fn model =
      some ⟨predict (cats_lc_value mid flux err fn), path⟩ := by
  unfold predict_nn
  rw [cats_lc_some mid flux err fn hlenf hlenx hlene hne hfil, hpath]
  rfl

theorem t2_val_eq (predict : Int → List SnanaRow → List ℚ)
    (candid : List Int) (jd : List (List ℚ)) (fid : List (List Nat))
    (magpsf sigmapsf : List (List (Option ℚ))) (mask : List Bool)
    (c : Int) :
    t2_val predict
        (snana_rows candid (jd.map rescale_t2) fid magpsf sigmapsf mask) c =
      if distinct_filters (t2_sub candid jd fid magpsf sigmapsf mask c) ≠ 2
      then t2_default
      else T2_COLS.zip
        (predict c (t2_sub candid jd fid magpsf sigmapsf mask c)) := rfl

/-! ## Claim theorems -/

/-- Claim C6: neither `predict_nn` nor `t2` mutates its input columns or
any shared state: threading the full input state through either embedded
body returns it unchanged — every Python statement of the two bodies binds
a local, none writes into an input series. -/
theorem c6_no_mutation :
    ∀ (p : List (List LCStep) → List (List ℚ)) (s : CatsInputs)
      (q : Int → List SnanaRow → List ℚ) (u : T2Inputs),
      (predict_nn_io p s).1 = s ∧ (t2_io q u).1 = u :=
  fun _ _ _ _ => ⟨rfl, rfl⟩

/-- Claim C7: both functions are stateless, deterministic per-batch
transformations: with a fixed model (inference function), equal input
batches give equal outputs, and running a function after a previous
invocation (on the state that invocation leaves behind) gives exactly the
same result as running it fresh — no state persists between invocations. -/
theorem c7_deterministic_stateless
    (p : List (List LCStep) → List (List ℚ)) (s1 s2 : CatsInputs)
    (q : Int → List SnanaRow → List ℚ) (u1 u2 : T2Inputs)
    (hs : s1 = s2) (hu : u1 = u2) :
    (predict_nn_io p s1).2 = (predict_nn_io p s2).2 ∧
    (t2_io q u1).2 = (t2_io q u2).2 ∧
    predict_nn_io p (predict_nn_io p s1).1 = predict_nn_io p s1 ∧
    t2_io q (t2_io q u1).1 = t2_io q u1 := by
  subst hs; subst hu
  exact ⟨rfl, rfl, rfl, rfl⟩

/-- Witness for C7 at a concrete input batch. -/
theorem c7_witness :
    (predict_nn_io cpred0 ⟨[[0, 1]], [[1, 2]], [[1, 1]], [["g", "r"]],
        none⟩).2 =
      (predict_nn_io cpred0 ⟨[[0, 1]], [[1, 2]], [[1, 1]], [["g", "r"]],
        none⟩).2 ∧
    (t2_io tpred0 ⟨[5], [[0]], [[1]], [[some 1]], [[some 1]], [0],
        ["Unknown"], [0], none⟩).2 =
      (t2_io tpred0 ⟨[5], [[0]], [[1]], [[some 1]], [[some 1]], [0],
        ["Unknown"], [0], none⟩).2 ∧
    predict_nn_io cpred0
        (predict_nn_io cpred0 ⟨[[0, 1]], [[1, 2]], [[1, 1]], [["g", "r"]],
          none⟩).1 =
      predict_nn_io cpred0 ⟨[[0, 1]], [[1, 2]], [[1, 1]], [["g", "r"]],
        none⟩ ∧
    t2_io tpred0
        (t2_io tpred0 ⟨[5], [[0]], [[1]], [[some 1]], [[some 1]], [0],
          ["Unknown"], [0], none⟩).1 =
      t2_io tpred0 ⟨[5], [[0]], [[1]], [[some 1]], [[some 1]], [0],
        ["Unknown"], [0], none⟩ :=
  c7_deterministic_stateless cpred0 _ _ tpred0 _ _ rfl rfl

/-- Claim C8: when no record of the batch passes the selection-cut mask,
`t2` returns immediately a series of length `len(jd)` whose every entry is
the sentinel mapping (every class label mapped to -1.0), with no model
loaded and no inference run. -/
theorem c8_early_return (predict : Int → List SnanaRow → List ℚ)
    (candid : List Int) (jd : List (List ℚ)) (fid : List (List Nat))
    (magpsf sigmapsf : List (List (Option ℚ))) (mask : List Bool)
    (model_name : Option (List String))
    (h : (maskedElems jd mask).length = 0) :
    t2_run predict candid jd fid magpsf sigmapsf mask model_name =
      ⟨List.replicate jd.length t2_default, none, 0⟩ :=
  t2_run_early predict candid jd fid magpsf sigmapsf mask model_name h

/-- Witness for C8: a one-record batch whose record fails the cuts. -/
theorem c8_witness :
    t2_run tpred0 [5] [[0]] [[1]] [[some 1]] [[some 1]] [false] none =
      ⟨List.replicate 1 t2_default, none, 0⟩ :=
  c8_early_return tpred0 [5] [[0]] [[1]] [[some 1]] [[some 1]] [false] none
    (by decide)

/-- Counterexample to claim C1 as stated: in a batch where one record is
empty and another is not, the time and band channel matrices have fewer
rows than the flux and error ones, `np.concatenate` raises a `ValueError`,
and `predict_nn` produces no output series at all (modelled by `none`) —
in particular not a series of length `len(input)`. -/
theorem c1_counterexample :
    predict_nn cpred0 [[], [0]] [[1], [1]] [[1], [1]] [[], ["g"]] none =
      none := by rfl

/-- Claim C1 (amended): `t2` always returns one class-to-probability
mapping per input record (output length equals `len(jd)`), and `predict_nn`
returns one probability array per input record provided every record is
non-empty, every filter name is recognized, the columns are aligned, a
supplied model column is non-empty, and the model returns one row per
tensor row; a batch mixing empty and non-empty records instead makes
`predict_nn` raise a shape error. -/
theorem c1_amended_lengths
    (predictC : List (List LCStep) → List (List ℚ))
    (mid flux err : List (List ℚ)) (fn : List (List String))
    (model : Option (List String))
    (hlenf : fn.length = mid.length) (hlenx : flux.length = mid.length)
    (hlene : err.length = mid.length)
    (hne : ∀ t ∈ mid, t ≠ [])
    (hfil : ∀ r ∈ fn, ∀ s ∈ r, filter_dict s ≠ none)
    (hmod : ∀ col, model = some col → col ≠ [])
    (hpred : ∀ xs, (predictC xs).length = xs.length)
    (predictT : Int → List SnanaRow → List ℚ)
    (candid : List Int) (jd : List (List ℚ)) (fid : List (List Nat))
    (magpsf sigmapsf : List (List (Option ℚ))) (mask : List Bool)
    (model_name : Option (List String)) :
    (∃ r, predict_nn predictC mid flux err fn model = some r ∧
      r.preds.length = mid.length) ∧
    (t2_run predictT candid jd fid magpsf sigmapsf mask
      model_name).out.length = jd.length := by
  constructor
  · obtain ⟨path, hpath⟩ : ∃ path, cats_model_path model = some path := by
      cases model with
      | none => exact ⟨defaultCatsModelPath, rfl⟩
      | some col =>
        cases col with
        | nil => exact absurd rfl (hmod [] rfl)
        | cons nm rest => exact ⟨nm, rfl⟩
    refine ⟨⟨predictC (cats_lc_value mid flux err fn), path⟩,
      predict_nn_eq predictC mid flux err fn model hlenf hlenx hlene hne
        hfil path hpath, ?_⟩
    show (predictC (cats_lc_value mid flux err fn)).length = mid.length
    rw [hpred]
    exact cats_lc_value_length mid flux err fn hlenf hlenx hlene hne
  · exact t2_run_out_length predictT candid jd fid magpsf sigmapsf mask
      model_name

/-- Witness for the amended C1 at concrete batches. -/
theorem c1_witness :
    (∃ r, predict_nn cpred0 [[0, 1]] [[1, 2]] [[1, 1]] [["g", "r"]] none =
      some r ∧ r.preds.length = 1) ∧
    (t2_run tpred0 [5] [[0]] [[1]] [[some 1]] [[some 1]] [true]
      none).out.length = 1 :=
  c1_amended_lengths cpred0 [[0, 1]] [[1, 2]] [[1, 1]] [["g", "r"]] none
    rfl rfl rfl (by decide) (by decide) (fun col h => nomatch h)
    (fun xs => by simp [cpred0]) tpred0 [5] [[0]] [[1]] [[some 1]]
    [[some 1]] [true] none

/-- Counterexample to claim C2 as stated: a record with an unrecognized
filter name makes `predict_nn` raise a `KeyError` (modelled by `none`)
instead of substituting a default/sentinel output row. -/
theorem c2_counterexample :
    predict_nn cpred0 [[0]] [[1]] [[1]] [["q"]] none = none := by rfl

/-- Claim C2 (amended): `t2` substitutes the default sentinel mapping for a
record that does not have exactly 2 distinct filters, without raising;
`predict_nn`, however, raises a `KeyError` on a non-empty record containing
an unrecognized filter name instead of substituting a sentinel row. -/
theorem c2_amended_malformed :
    (∀ (predict : Int → List SnanaRow → List ℚ) (candid : List Int)
      (jd : List (List ℚ)) (fid : List (List Nat))
      (magpsf sigmapsf : List (List (Option ℚ))) (mask : List Bool)
      (model_name : Option (List String)) (n i : Nat),
      candid.length = n → jd.length = n → mask.length = n → i < n →
      mask.getD i false = true →
      distinct_filters
        (t2_sub candid jd fid magpsf sigmapsf mask (candid.getD i 0)) ≠ 2 →
      (t2_run predict candid jd fid magpsf sigmapsf mask
        model_name).out.getD i [] = t2_default) ∧
    (∀ (predict : List (List LCStep) → List (List ℚ))
      (mid flux err : List (List ℚ)) (fn : List (List String))
      (model : Option (List String)) (i : Nat),
      i < mid.length → i < fn.length → mid.getD i [] ≠ [] →
      (∃ s ∈ fn.getD i [], filter_dict s = none) →
      predict_nn predict mid flux err fn model = none) := by
  constructor
  · intro predict candid jd fid magpsf sigmapsf mask model_name n i hc hj
      hm hi hmt hd
    have hchar := t2_run_out_getD predict candid jd fid magpsf sigmapsf
      mask model_name hc hj hm i hi
    rw [hchar, hmt]
    simp only [reduceIte]
    rw [t2_val_eq, if_pos hd]
  · intro predict mid flux err fn model i hi hif hnei hex
    obtain ⟨s, hs, hsnone⟩ := hex
    have hlt : i < (mid.zip fn).length := by
      rw [List.length_zip]
      omega
    have hmem : (mid.getD i [], fn.getD i []) ∈ mid.zip fn := by
      have h0 := List.getElem_mem (l := mid.zip fn) (n := i) hlt
      rw [List.getElem_zip] at h0
      rw [List.getD_eq_getElem mid [] hi, List.getD_eq_getElem fn [] hif]
      exact h0
    have hp : (mid.getD i [], fn.getD i []) ∈ cats_pairs mid fn := by
      apply List.mem_filter.mpr
      refine ⟨hmem, ?_⟩
      simpa [List.isEmpty_iff] using hnei
    have hinner : mapOpt filter_dict (fn.getD i []) = none :=
      mapOpt_none_of_mem filter_dict hs hsnone
    have houter : cats_filters mid fn = none := by
      unfold cats_filters
      exact mapOpt_none_of_mem _ hp hinner
    simp [predict_nn, cats_lc, cats_band, houter]

/-- Witness for the amended C2: a t2 record whose two observations share
one filter gets the sentinel mapping; a cats record with filter name "zz"
produces no output. -/
theorem c2_witness :
    (t2_run tpred0 [9] [[0, 1]] [[1, 1]] [[some 1, some 2]]
      [[some 1, some 1]] [true] none).out.getD 0 [] = t2_default ∧
    predict_nn cpred0 [[3]] [[1]] [[1]] [["zz"]] none = none :=
  ⟨c2_amended_malformed.1 tpred0 [9] [[0, 1]] [[1, 1]]
      [[some 1, some 2]] [[some 1, some 1]] [true] none 1 0 rfl rfl rfl
      (by decide) (by decide) (by decide),
    c2_amended_malformed.2 cpred0 [[3]] [[1]] [[1]] [["zz"]] none 0
      (by decide) (by decide) (by decide) ⟨"zz", by decide, by decide⟩⟩

/-- Claim C3: in `t2`, every record excluded by the selection-cut mask (or
failing the distinct-filter-count check) occupies its original batch
position in the output and carries the sentinel mapping assigning -1.0 to
every class label, while every record passing the cuts (with exactly 2
distinct filters among its rows) receives the model's prediction mapping at
its original position. -/
theorem c3_merge_positions (predict : Int → List SnanaRow → List ℚ)
    (candid : List Int) (jd : List (List ℚ)) (fid : List (List Nat))
    (magpsf sigmapsf : List (List (Option ℚ))) (mask : List Bool)
    (model_name : Option (List String)) {n : Nat}
    (hc : candid.length = n) (hj : jd.length = n) (hm : mask.length = n)
    (i : Nat) (hi : i < n) :
    (mask.getD i false = false →
      (t2_run predict candid jd fid magpsf sigmapsf mask
        model_name).out.getD i [] = t2_default) ∧
    (mask.getD i false = true →
      distinct_filters
          (t2_sub candid jd fid magpsf sigmapsf mask (candid.getD i 0)) ≠ 2 →
      (t2_run predict candid jd fid magpsf sigmapsf mask
        model_name).out.getD i [] = t2_default) ∧
    (mask.getD i false = true →
      distinct_filters
          (t2_sub candid jd fid magpsf sigmapsf mask (candid.getD i 0)) = 2 →
      (t2_run predict candid jd fid magpsf sigmapsf mask
        model_name).out.getD i [] =
        T2_COLS.zip (predict (candid.getD i 0)
          (t2_sub candid jd fid magpsf sigmapsf mask
            (candid.getD i 0)))) := by
  have hchar := t2_run_out_getD predict candid jd fid magpsf sigmapsf mask
    model_name hc hj hm i hi
  refine ⟨fun hmf => ?_, fun hmt hd => ?_, fun hmt hd => ?_⟩
  · rw [hchar, hmf]
    simp
  · rw [hchar, hmt]
    simp only [reduceIte]
    rw [t2_val_eq, if_pos hd]
  · rw [hchar, hmt]
    simp only [reduceIte]
    rw [t2_val_eq, if_neg (by simpa using hd)]

/-- Witness for C3: a two-record batch; the first record is cut, the second
passes with observations in both ztf-g and ztf-r. -/
theorem c3_witness :
    ([false, true].getD 1 false = false →
      (t2_run tpred0 [4, 7] [[0], [0, 1]] [[1], [1, 2]]
        [[some 1], [some 1, some 2]] [[some 1], [some 1, some 1]]
        [false, true] none).out.getD 1 [] = t2_default) ∧
    ([false, true].getD 1 false = true →
      distinct_filters
          (t2_sub [4, 7] [[0], [0, 1]] [[1], [1, 2]]
            [[some 1], [some 1, some 2]] [[some 1], [some 1, some 1]]
            [false, true] 7) ≠ 2 →
      (t2_run tpred0 [4, 7] [[0], [0, 1]] [[1], [1, 2]]
        [[some 1], [some 1, some 2]] [[some 1], [some 1, some 1]]
        [false, true] none).out.getD 1 [] = t2_default) ∧
    ([false, true].getD 1 false = true →
      distinct_filters
          (t2_sub [4, 7] [[0], [0, 1]] [[1], [1, 2]]
            [[some 1], [some 1, some 2]] [[some 1], [some 1, some 1]]
            [false, true] 7) = 2 →
      (t2_run tpred0 [4, 7] [[0], [0, 1]] [[1], [1, 2]]
        [[some 1], [some 1, some 2]] [[some 1], [some 1, some 1]]
        [false, true] none).out.getD 1 [] =
        T2_COLS.zip (tpred0 7
          (t2_sub [4, 7] [[0], [0, 1]] [[1], [1, 2]]
            [[some 1], [some 1, some 2]] [[some 1], [some 1, some 1]]
            [false, true] 7))) :=
  @c3_merge_positions tpred0 [4, 7] [[0], [0, 1]] [[1], [1, 2]]
    [[some 1], [some 1, some 2]] [[some 1], [some 1, some 1]]
    [false, true] none 2 rfl rfl rfl 1 (by decide)

/-- Counterexample to claim C4 as stated: on a batch containing an empty
record next to a non-empty one, the channel matrices have mismatched row
counts, the stacking raises, and no `(n, 395, 4)` tensor is produced. -/
theorem c4_counterexample :
    cats_lc [[], [1]] [[2], [2]] [[3], [3]] [[], ["r"]] = none := by rfl

/-- Claim C4 (amended): for every batch whose records are all non-empty,
whose filter names are recognized, and whose four columns are aligned (per
record and across records), each object's time, flux, error and band series
is padded — pre-truncated when longer than 395 — to exactly 395 steps,
post-padded with the sentinels -999.0 (time, flux, error) and 0 (band), and
the four channels are stacked into a tensor of shape
(number of objects, 395, 4): one row per object, 395 steps per row, the
data occupying the leading positions and the sentinel 4-tuple the rest. -/
theorem c4_amended_padding (mid flux err : List (List ℚ))
    (fn : List (List String))
    (hlenf : fn.length = mid.length) (hlenx : flux.length = mid.length)
    (hlene : err.length = mid.length)
    (hne : ∀ t ∈ mid, t ≠ [])
    (hfil : ∀ r ∈ fn, ∀ s ∈ r, filter_dict s ≠ none)
    (hrec : ∀ i, i < mid.length →
      (fn.getD i []).length = (mid.getD i []).length ∧
      (flux.getD i []).length = (mid.getD i []).length ∧
      (err.getD i []).length = (mid.getD i []).length) :
    ∃ lc, cats_lc mid flux err fn = some lc ∧
      lc.length = mid.length ∧
      (∀ i, i < mid.length → (lc.getD i []).length = 395) ∧
      (∀ i, i < mid.length → ∀ j,
        min (mid.getD i []).length 395 ≤ j → j < 395 →
        (lc.getD i []).getD j ⟨0, 0, 0, 0⟩ = ⟨-999, -999, -999, 0⟩) ∧
      (∀ i, i < mid.length → ∀ j, j < min (mid.getD i []).length 395 →
        (lc.getD i []).getD j ⟨0, 0, 0, 0⟩ =
          ⟨(rescale_cats (mid.getD i [])).getD
              ((mid.getD i []).length - 395 + j) 0,
            (norm_column (flux.getD i [])).getD
              ((mid.getD i []).length - 395 + j) 0,
            (norm_column (err.getD i [])).getD
              ((mid.getD i []).length - 395 + j) 0,
            ((fn.getD i []).map (fun s => (filter_dict s).getD 0)).getD
              ((mid.getD i []).length - 395 + j) 0⟩) := by
  refine ⟨cats_lc_value mid flux err fn,
    cats_lc_some mid flux err fn hlenf hlenx hlene hne hfil,
    cats_lc_value_length mid flux err fn hlenf hlenx hlene hne,
    ?_, ?_, ?_⟩
  · intro i hi
    rw [cats_lc_value_getD mid flux err fn hlenf hlenx hlene hne i hi]
    exact zipRow4_length_eq (pad_post_length _ _ _) (pad_post_length _ _ _)
      (pad_post_length _ _ _) (pad_post_length _ _ _)
  · intro i hi j hjmin hj395
    rw [cats_lc_value_getD mid flux err fn hlenf hlenx hlene hne i hi]
    rw [zipRow4_getD (pad_post_length _ _ _) (pad_post_length _ _ _)
      (pad_post_length _ _ _) (pad_post_length _ _ _) j hj395]
    rw [pad_post_getD_ge _ _ _ _ _
      (by rw [rescale_cats_length]; exact hjmin) hj395]
    rw [pad_post_getD_ge _ _ _ _ _
      (by rw [norm_column_length, (hrec i hi).2.1]; exact hjmin) hj395]
    rw [pad_post_getD_ge _ _ _ _ _
      (by rw [norm_column_length, (hrec i hi).2.2]; exact hjmin) hj395]
    rw [pad_post_getD_ge _ _ _ _ _
      (by rw [List.length_map, (hrec i hi).1]; exact hjmin) hj395]
  · intro i hi j hj
    have hj395 : j < 395 := by omega
    rw [cats_lc_value_getD mid flux err fn hlenf hlenx hlene hne i hi]
    rw [zipRow4_getD (pad_post_length _ _ _) (pad_post_length _ _ _)
      (pad_post_length _ _ _) (pad_post_length _ _ _) j hj395]
    rw [pad_post_getD_lt _ _ _ _ _ (by rw [rescale_cats_length]; exact hj)]
    rw [pad_post_getD_lt _ _ _ _ _
      (by rw [norm_column_length, (hrec i hi).2.1]; exact hj)]
    rw [pad_post_getD_lt _ _ _ _ _
      (by rw [norm_column_length, (hrec i hi).2.2]; exact hj)]
    rw [pad_post_getD_lt _ _ _ _ _
      (by rw [List.length_map, (hrec i hi).1]; exact hj)]
    rw [rescale_cats_length, norm_column_length, norm_column_length,
      List.length_map, (hrec i hi).1, (hrec i hi).2.1, (hrec i hi).2.2]

/-- Witness for the amended C4 at a concrete two-observation record. -/
theorem c4_witness :
    ∃ lc, cats_lc [[2, 4]] [[1, 3]] [[1, 5]] [["i", "z"]] = some lc ∧
      lc.length = 1 ∧
      (∀ i, i < 1 → (lc.getD i []).length = 395) ∧
      (∀ i, i < 1 → ∀ j,
        min (([[2, 4]].getD i ([] : List ℚ)).length : Nat) 395 ≤ j →
        j < 395 →
        (lc.getD i []).getD j ⟨0, 0, 0, 0⟩ = ⟨-999, -999, -999, 0⟩) ∧
      (∀ i, i < 1 → ∀ j,
        j < min (([[2, 4]].getD i ([] : List ℚ)).length : Nat) 395 →
        (lc.getD i []).getD j ⟨0, 0, 0, 0⟩ =
          ⟨(rescale_cats ([[2, 4]].getD i [])).getD
              (([[2, 4]].getD i ([] : List ℚ)).length - 395 + j) 0,
            (norm_column ([[1, 3]].getD i [])).getD
              (([[2, 4]].getD i ([] : List ℚ)).length - 395 + j) 0,
            (norm_column ([[1, 5]].getD i [])).getD
              (([[2, 4]].getD i ([] : List ℚ)).length - 395 + j) 0,
            (([["i", "z"]].getD i []).map
                (fun s => (filter_dict s).getD 0)).getD
              (([[2, 4]].getD i ([] : List ℚ)).length - 395 + j) 0⟩) :=
  c4_amended_padding [[2, 4]] [[1, 3]] [[1, 5]] [["i", "z"]] rfl rfl rfl
    (by decide) (by decide) (by decide)

/-- Claim C5: on every invocation that loads a model, the artifact location
is the fixed default when the model argument is absent, and the first
element of the supplied column otherwise (one override per batch): for
`predict_nn` via the resolved model path, for `t2` via
`get_lite_model` (default model when `model_name` is `None`, named model
from the column's first element otherwise; `t2` loads only when some record
passes the cuts, cf. C8). -/
theorem c5_model_selection
    (predictC : List (List LCStep) → List (List ℚ))
    (mid flux err : List (List ℚ)) (fn : List (List String))
    (model : Option (List String)) (r : CatsResult)
    (hsome : predict_nn predictC mid flux err fn model = some r)
    (predictT : Int → List SnanaRow → List ℚ)
    (candid : List Int) (jd : List (List ℚ)) (fid : List (List Nat))
    (magpsf sigmapsf : List (List (Option ℚ))) (mask : List Bool)
    (model_name : Option (List String))
    (hmask : (maskedElems jd mask).length ≠ 0) :
    ((model = none → r.modelPath = defaultCatsModelPath) ∧
      (∀ nm rest, model = some (nm :: rest) → r.modelPath = nm)) ∧
    ((model_name = none →
        (t2_run predictT candid jd fid magpsf sigmapsf mask
          model_name).model = some (get_lite_model none)) ∧
      (∀ nm rest, model_name = some (nm :: rest) →
        (t2_run predictT candid jd fid magpsf sigmapsf mask
          model_name).model = some (get_lite_model (some nm)))) := by
  constructor
  · have hpath : cats_model_path model = some r.modelPath := by
      cases hlc : cats_lc mid flux err fn with
      | none => simp [predict_nn, hlc] at hsome
      | some lc =>
        cases hp : cats_model_path model with
        | none => simp [predict_nn, hlc, hp] at hsome
        | some p =>
          rw [predict_nn, hlc, hp] at hsome
          simp at hsome
          rw [← hsome]
    constructor
    · intro hnone
      rw [hnone] at hpath
      exact (Option.some_inj.mp hpath).symm
    · intro nm rest hm
      rw [hm] at hpath
      exact (Option.some_inj.mp hpath).symm
  · rw [t2_run_model predictT candid jd fid magpsf sigmapsf mask
      model_name hmask]
    constructor
    · intro h
      rw [h]
      rfl
    · intro nm rest h
      rw [h]
      rfl

/-- Witness for C5: `predict_nn` with no model column resolves the default
path; `t2` on a batch with a surviving record resolves the default model. -/
theorem c5_witness :
    (((none : Option (List String)) = none →
        (CatsResult.mk [[1]] defaultCatsModelPath).modelPath =
          defaultCatsModelPath) ∧
      (∀ nm rest, (none : Option (List String)) = some (nm :: rest) →
        (CatsResult.mk [[1]] defaultCatsModelPath).modelPath = nm)) ∧
    (((none : Option (List String)) = none →
        (t2_run tpred0 [8] [[1]] [[2]] [[some 2]] [[some 1]] [true]
          none).model = some (get_lite_model none)) ∧
      (∀ nm rest, (none : Option (List String)) = some (nm :: rest) →
        (t2_run tpred0 [8] [[1]] [[2]] [[some 2]] [[some 1]] [true]
          none).model = some (get_lite_model (some nm)))) :=
  c5_model_selection cpred0 [[0, 2]] [[1, 1]] [[1, 1]] [["u", "z"]] none
    (CatsResult.mk [[1]] defaultCatsModelPath) (by rfl) tpred0 [8] [[1]]
    [[2]] [[some 2]] [[some 1]] [true] none (by decide)

/-- Claim C9: both functions shift a non-empty time series so that the
first timestamp maps to 0, with opposite signs: `predict_nn` maps element
`x` to `x - t0` (non-negative for increasing times), `t2` maps it to
`t0 - x` (the elementwise negation, non-positive for increasing times). -/
theorem c9_rescale_signs (t0 : ℚ) (rest : List ℚ)
    (hsort : List.Sorted (· ≤ ·) (t0 :: rest)) :
    rescale_cats (t0 :: rest) = (t0 :: rest).map (fun x => x - t0) ∧
    rescale_t2 (t0 :: rest) = (t0 :: rest).map (fun x => t0 - x) ∧
    rescale_t2 (t0 :: rest) =
      (rescale_cats (t0 :: rest)).map (fun x => -x) ∧
    (∀ x ∈ rescale_cats (t0 :: rest), 0 ≤ x) ∧
    (∀ x ∈ rescale_t2 (t0 :: rest), x ≤ 0) := by
  have hle : ∀ b ∈ rest, t0 ≤ b := (List.sorted_cons.mp hsort).1
  refine ⟨rfl, rfl, ?_, ?_, ?_⟩
  · show (t0 :: rest).map (fun x => t0 - x) =
      ((t0 :: rest).map (fun x => x - t0)).map (fun x => -x)
    rw [List.map_map]
    apply List.map_congr_left
    intro a _
    simp [Function.comp]
  · show ∀ x ∈ (t0 :: rest).map (fun x => x - t0), 0 ≤ x
    intro x hx
    obtain ⟨y, hy, rfl⟩ := List.mem_map.mp hx
    rcases List.mem_cons.mp hy with rfl | hmem
    · simp
    · have := hle y hmem; linarith
  · show ∀ x ∈ (t0 :: rest).map (fun x => t0 - x), x ≤ 0
    intro x hx
    obtain ⟨y, hy, rfl⟩ := List.mem_map.mp hx
    rcases List.mem_cons.mp hy with rfl | hmem
    · simp
    · have := hle y hmem; linarith

/-- Witness for C9 at the increasing time series `[0, 1, 3]`. -/
theorem c9_witness :
    rescale_cats (0 :: [1, 3]) = (0 :: [1, 3]).map (fun x => x - 0) ∧
    rescale_t2 (0 :: [1, 3]) = (0 :: [1, 3]).map (fun x => (0 : ℚ) - x) ∧
    rescale_t2 (0 :: [1, 3]) =
      (rescale_cats (0 :: [1, 3])).map (fun x => -x) ∧
    (∀ x ∈ rescale_cats (0 :: [1, 3]), 0 ≤ x) ∧
    (∀ x ∈ rescale_t2 (0 :: [1, 3]), x ≤ 0) :=
  c9_rescale_signs 0 [1, 3] (by decide)

/-- Claim C10: in `predict_nn` the padded band tensor keeps padding
distinguishable from data: every valid filter name maps to a code in
`{1, 2, 3, 4, 5, 6}`, padded positions hold the sentinel 0, and a band
value of 0 occurs exactly at the padded positions — never at a real
(possibly pre-truncated) observation. -/
theorem c10_band_sentinel (mid : List (List ℚ)) (fn : List (List String))
    (hfil : ∀ r ∈ fn, ∀ s ∈ r, filter_dict s ≠ none) :
    (∀ s q, filter_dict s = some q → q ∈ ([1, 2, 3, 4, 5, 6] : List ℚ)) ∧
    ∃ bs, cats_band mid fn = some bs ∧
      bs.length = (cats_pairs mid fn).length ∧
      ∀ i, i < bs.length → ∀ j, j < 395 →
        ((bs.getD i []).getD j 1 = 0 ↔
          min ((cats_pairs mid fn).getD i ([], [])).2.length 395 ≤ j) := by
  constructor
  · intro s q h
    unfold filter_dict at h
    split_ifs at h <;> cases h <;> decide
  · refine ⟨(cats_codes mid fn).map (pad_post 395 0), ?_, ?_, ?_⟩
    · unfold cats_band
      rw [cats_filters_some mid fn hfil]
      rfl
    · rw [List.length_map]
      unfold cats_codes
      rw [List.length_map]
    · intro i hi j hj395
      rw [List.length_map] at hi
      have hip : i < (cats_pairs mid fn).length := by
        unfold cats_codes at hi
        rw [List.length_map] at hi
        exact hi
      rw [getD_map_of_lt _ _ _ [] i hi]
      have hcodes : (cats_codes mid fn).getD i [] =
          ((cats_pairs mid fn).getD i ([], [])).2.map
            (fun s => (filter_dict s).getD 0) := by
        unfold cats_codes
        rw [getD_map_of_lt _ _ _ ([], []) i hip]
      rw [hcodes]
      have hfn2 : ((cats_pairs mid fn).getD i ([], [])).2 ∈ fn := by
        have hpmem : (cats_pairs mid fn).getD i ([], []) ∈
            cats_pairs mid fn := by
          rw [List.getD_eq_getElem _ _ hip]
          exact List.getElem_mem hip
        have hzipm := List.mem_of_mem_filter hpmem
        rcases hpe : (cats_pairs mid fn).getD i ([], []) with ⟨t, f⟩
        rw [hpe] at hzipm
        exact (List.of_mem_zip hzipm).2
      set f2 := ((cats_pairs mid fn).getD i ([], [])).2 with hf2
      set L := f2.length with hL
      have hmaplen : (f2.map (fun s => (filter_dict s).getD 0)).length = L := by
        rw [List.length_map]
      by_cases hcase : j < min L 395
      · have hval := pad_post_getD_lt 395 0
          (f2.map (fun s => (filter_dict s).getD 0)) 1 j
          (by rw [hmaplen]; exact hcase)
        rw [hmaplen] at hval
        rw [hval]
        have hidx : L - 395 + j < L := by omega
        have hmem2 : (f2.map (fun s => (filter_dict s).getD 0)).getD
            (L - 395 + j) 1 ∈ f2.map (fun s => (filter_dict s).getD 0) := by
          rw [List.getD_eq_getElem _ _ (by rw [hmaplen]; exact hidx)]
          exact List.getElem_mem _
        obtain ⟨s, hsmem, hsval⟩ := List.mem_map.mp hmem2
        have hne2 := hfil f2 hfn2 s hsmem
        obtain ⟨q, hq⟩ : ∃ q, filter_dict s = some q := by
          cases hfd : filter_dict s with
          | none => exact absurd hfd hne2
          | some q => exact ⟨q, rfl⟩
        have hrange := filter_dict_range s q hq
        have hvne : (f2.map (fun s => (filter_dict s).getD 0)).getD
            (L - 395 + j) 1 ≠ 0 := by
          rw [← hsval, hq]
          show (some q).getD 0 ≠ 0
          simp only [Option.getD_some]
          intro h0
          rw [h0] at hrange
          exact absurd hrange.1 (by norm_num)
        exact iff_of_false hvne (by omega)
      · have hval := pad_post_getD_ge 395 0
          (f2.map (fun s => (filter_dict s).getD 0)) 1 j
          (by rw [hmaplen]; omega) hj395
        rw [hval]
        exact iff_of_true rfl (by omega)

/-- Witness for C10 at a one-record batch observed in the u band. -/
theorem c10_witness :
    (∀ s q, filter_dict s = some q → q ∈ ([1, 2, 3, 4, 5, 6] : List ℚ)) ∧
    ∃ bs, cats_band [[5]] [["u"]] = some bs ∧
      bs.length = (cats_pairs [[5]] [["u"]]).length ∧
      ∀ i, i < bs.length → ∀ j, j < 395 →
        ((bs.getD i []).getD j 1 = 0 ↔
          min ((cats_pairs [[5]] [["u"]]).getD i ([], [])).2.length 395
            ≤ j) :=
  c10_band_sentinel [[5]] [["u"]] (by decide)

end FinkScience
